import Mathlib

/-!
Shallow embedding of the Oxomo OAI-PMH harvester
(src/oxomo/CheckPoint.py and src/oxomo/OxomoHarvester.py).

The MongoDB store is modelled as a function from (database name,
collection name) to an optional list of documents: `none` means the
collection does not exist (it is absent from list_collection_names),
`some l` means the collection exists and holds the documents `l` in
insertion order.  Every store mutation performed by the code is one of
four primitive operations (drop, insert_one, insert_many,
update_one with a set of status to 1), reified as the type `Op` so
that the exact sequence of writes performed by a method call is a
value (a trace) that theorems can inspect.

The OAI-PMH client (the oaipmh library) is an external collaborator;
it is modelled as a record of total functions returning `Except`, one
per operation the code uses.  A lazy listing that fails during
iteration is indistinguishable, at the level of store effects, from a
listing call that fails outright, because the code fully materializes
every listing into a Python list before performing any store write.
-/

namespace Oxomo

/-- An exception thrown by the oaipmh client: the code records
`str(type(e))` (the class) and `str(e)` (the message). -/
structure Err where
  cls : String
  msg : String
deriving DecidableEq

/-- Result of `client.getRecord`: a header answering `isDeleted()` and
the metadata object whose `getMap()` is a key/value map. -/
structure OaiRecord where
  deleted : Bool
  meta : List (String × String)
deriving DecidableEq

/-- Result of `client.identify()`, as read by `OxomoCheckPoint.create`. -/
structure Identity where
  repositoryName : String
  adminEmails : List String
  baseURL : String
  protocolVersion : String
  earliestDatestamp : String
  granularity : String
deriving DecidableEq

/-- A set ledger item as handed to `process_set` by `run`: the two
fields left by the projection of `get_sets_regs`. -/
structure SetItem where
  ident : String
  name : String
deriving DecidableEq

/-- The oaipmh client operations used by the code.  `listIdentifiersAll`
is `listIdentifiers(metadataPrefix=oai_dc)` as called by `create`;
`listIdentifiersSet` is `listIdentifiers(metadataPrefix=oai_dc, set=...)`
as called by `process_set`.  `listIdentifiersSet` treats the member
listing as atomic (call plus materialization as one `Except`); this is
adequate for every path of `process_set` that performs store writes,
but it collapses a failure raised during the lazy iteration itself —
the refined model `LazyIds` / `processSetLazy` below distinguishes
that path. -/
structure Client where
  identify : Except Err Identity
  listIdentifiersAll : Except Err (List String)
  listSets : Except Err (List (String × String))
  getRecord : String → Except Err OaiRecord
  listIdentifiersSet : String → Except Err (List String)

/-- The documents the code writes, one constructor per shape.
`errorSetDoc` keeps both fields of the set item because the source
stores the whole identifier dict as the error document id field. -/
inductive Doc where
  | identityDoc (info : Identity)
  | ledgerRec (theId : String) (status : Nat)
  | ledgerSet (theId : String) (name : String) (status : Nat)
  | errorRecDoc (theId : String) (instanceStr : String) (itemType : String) (msg : String)
  | errorSetDoc (theId : String) (name : String) (instanceStr : String) (itemType : String) (msg : String)
  | deletedDoc (theId : String)
  | recordDoc (theId : String) (meta : List (String × String))
  | setDoc (theId : String) (name : String) (records : List String)
deriving DecidableEq

/-- A store location: database name and collection name. -/
abbrev Key := String × String

/-- The MongoDB state: `none` for an absent collection. -/
abbrev Store := Key → Option (List Doc)

/-- Reading a collection: find on an absent collection yields nothing. -/
def getColl (s : Store) (k : Key) : List Doc :=
  (s k).getD []

/-- The store with no collections at all. -/
def emptyStore : Store := fun _ => none

/-- The four store mutations the code performs.  `updateOneSetDone`
is `update_one(keys, set status to 1)` with filter `keys` of the form
of an id equality, as in `update_record` and `update_set`. -/
inductive Op where
  | dropColl (db coll : String)
  | insertOne (db coll : String) (d : Doc)
  | insertMany (db coll : String) (ds : List Doc)
  | updateOneSetDone (db coll : String) (theId : String)
deriving DecidableEq

/-- Whether a document matches the filter on id equality used by
`update_record` and `update_set`.  The identity snapshot has no
explicit id, and a set error document has the whole item dict as its
id, so neither matches a plain string id. -/
def docMatchesId (d : Doc) (i : String) : Bool :=
  match d with
  | .identityDoc _ => false
  | .ledgerRec j _ => j == i
  | .ledgerSet j _ _ => j == i
  | .errorRecDoc j _ _ _ => j == i
  | .errorSetDoc _ _ _ _ _ => false
  | .deletedDoc j => j == i
  | .recordDoc j _ => j == i
  | .setDoc j _ _ => j == i

/-- The effect of the update document setting status to 1.  Only
ledger documents carry a status field in this development; the update
operations of the code only ever target checkpoint collections, which
only ever hold ledger documents. -/
def setStatusDone : Doc → Doc
  | .ledgerRec j _ => .ledgerRec j 1
  | .ledgerSet j n _ => .ledgerSet j n 1
  | d => d

/-- `update_one` semantics: rewrite the first matching document only. -/
def updateFirst (p : Doc → Bool) (f : Doc → Doc) : List Doc → List Doc
  | [] => []
  | d :: ds => if p d then f d :: ds else d :: updateFirst p f ds

/-- Applying one primitive operation to the store.  An insert creates
the collection if absent (MongoDB auto-creation); an update on an
absent collection is a no-op. -/
def apply (s : Store) : Op → Store
  | .dropColl db coll => fun k =>
      if k = (db, coll) then none else s k
  | .insertOne db coll d => fun k =>
      if k = (db, coll) then some (getColl s (db, coll) ++ [d]) else s k
  | .insertMany db coll ds => fun k =>
      if k = (db, coll) then some (getColl s (db, coll) ++ ds) else s k
  | .updateOneSetDone db coll i => fun k =>
      if k = (db, coll) then
        (s (db, coll)).map (updateFirst (fun d => docMatchesId d i) setStatusDone)
      else s k

/-- Applying a trace of operations in order. -/
def applyOps (s : Store) (ops : List Op) : Store :=
  ops.foldl apply s

/-- Classification of operations: the outcome writes. -/
def Op.isInsert : Op → Bool
  | .insertOne _ _ _ => true
  | .insertMany _ _ _ => true
  | _ => false

/-- Classification of operations: the ledger done transitions. -/
def Op.isLedgerDone : Op → Bool
  | .updateOneSetDone _ _ _ => true
  | _ => false

/-- Classification of operations: collection drops. -/
def Op.isDrop : Op → Bool
  | .dropColl _ _ => true
  | _ => false

/-- The database an operation writes to. -/
def Op.dbOf : Op → String
  | .dropColl db _ => db
  | .insertOne db _ _ => db
  | .insertMany db _ _ => db
  | .updateOneSetDone db _ _ => db

/-- Whether a ledger document is marked done (status 1). -/
def isDone : Doc → Bool
  | .ledgerRec _ st => st == 1
  | .ledgerSet _ _ st => st == 1
  | _ => false

/-!  The checkpoint store, `OxomoCheckPoint` in src/oxomo/CheckPoint.py.
Each method becomes a function over the explicit store state. -/

/-- Outcome of `OxomoCheckPoint.create`: normal return, an oaipmh
exception propagating out, or the pymongo `InvalidOperation` raised by
`insert_many` on an empty document list. -/
inductive CreateResult where
  | ok
  | protoErr (e : Err)
  | emptyInsertErr
deriving DecidableEq

/-- `OxomoCheckPoint.create(base_url, mongo_db, mongo_collection)`:
identify, drop and rewrite the identity collection, materialize the
record id listing, drop and bulk-insert the record ledger, materialize
the set listing, drop and bulk-insert the set ledger.  Each listing is
fully materialized before the corresponding drop and insert, and
pymongo `insert_many` raises on an empty list after the drop has
already run. -/
def create (client : Client) (s : Store) (mongoDb mongoCollection : String) :
    CreateResult × Store :=
  match client.identify with
  | .error e => (.protoErr e, s)
  | .ok idy =>
    let s1 := apply s (.dropColl mongoDb (mongoCollection ++ "_identity"))
    let s2 := apply s1 (.insertOne mongoDb (mongoCollection ++ "_identity") (.identityDoc idy))
    match client.listIdentifiersAll with
    | .error e => (.protoErr e, s2)
    | .ok ids =>
      let identifiers := ids.map (fun j => Doc.ledgerRec j 0)
      let s3 := apply s2 (.dropColl mongoDb (mongoCollection ++ "_records_checkpoint"))
      if identifiers.isEmpty then (.emptyInsertErr, s3)
      else
        let s4 := apply s3 (.insertMany mongoDb (mongoCollection ++ "_records_checkpoint") identifiers)
        match client.listSets with
        | .error e => (.protoErr e, s4)
        | .ok setsRegs =>
          let sets := setsRegs.map (fun p => Doc.ledgerSet p.1 p.2 0)
          let s5 := apply s4 (.dropColl mongoDb (mongoCollection ++ "_sets_checkpoint"))
          if sets.isEmpty then (.emptyInsertErr, s5)
          else
            (.ok, apply s5 (.insertMany mongoDb (mongoCollection ++ "_sets_checkpoint") sets))

/-- `OxomoCheckPoint.exists`: both ledger collections appear in
`list_collection_names`. -/
def existsCkp (s : Store) (mongoDb mongoCollection : String) : Bool :=
  (s (mongoDb, mongoCollection ++ "_records_checkpoint")).isSome &&
  (s (mongoDb, mongoCollection ++ "_sets_checkpoint")).isSome

/-- `OxomoCheckPoint.drop`: drop identity and the two ledgers. -/
def dropCkp (s : Store) (mongoDb mongoCollection : String) : Store :=
  applyOps s
    [.dropColl mongoDb (mongoCollection ++ "_identity"),
     .dropColl mongoDb (mongoCollection ++ "_records_checkpoint"),
     .dropColl mongoDb (mongoCollection ++ "_sets_checkpoint")]

/-- `OxomoCheckPoint.update_record(mongo_db, mongo_collection, keys)`
with the filter keys the code always passes, an id equality. -/
def update_record (s : Store) (mongoDb mongoCollection theId : String) : Store :=
  apply s (.updateOneSetDone mongoDb (mongoCollection ++ "_records_checkpoint") theId)

/-- `OxomoCheckPoint.update_set`, likewise. -/
def update_set (s : Store) (mongoDb mongoCollection theId : String) : Store :=
  apply s (.updateOneSetDone mongoDb (mongoCollection ++ "_sets_checkpoint") theId)

/-- Filter and projection of `get_records_regs`: find documents with
status equal to 0, and the projection removes the status field, so
what remains of a record ledger entry is its id. -/
def recLedgerPending : Doc → Option String
  | .ledgerRec j st => if st = 0 then some j else none
  | _ => none

/-- `OxomoCheckPoint.get_records_regs`: the pending record ledger
entries, each represented by the fields the projection keeps. -/
def get_records_regs (s : Store) (mongoDb mongoCollection : String) : List String :=
  (getColl s (mongoDb, mongoCollection ++ "_records_checkpoint")).filterMap recLedgerPending

/-- Filter and projection of `get_sets_regs`: status 0, keeping id and name. -/
def setLedgerPending : Doc → Option SetItem
  | .ledgerSet j n st => if st = 0 then some ⟨j, n⟩ else none
  | _ => none

/-- `OxomoCheckPoint.get_sets_regs`: the pending set ledger entries. -/
def get_sets_regs (s : Store) (mongoDb mongoCollection : String) : List SetItem :=
  (getColl s (mongoDb, mongoCollection ++ "_sets_checkpoint")).filterMap setLedgerPending

/-!  The harvester, `OxomoHarvester` in src/oxomo/OxomoHarvester.py.
`selfMongoDb` stands for the `self.mongo_db` fixed at construction;
the `mongoDb` parameter is the `mongo_db` argument of the method.
Both Mongo clients of the harvester connect to the same server, so a
single store models both. -/

/-- The store operations performed by one call of
`OxomoHarvester.process_record(client, identifier, mongo_db,
mongo_collection)`, in order. -/
def processRecordOps (selfMongoDb : String) (client : Client)
    (identifier mongoDb mongoCollection : String) : List Op :=
  match client.getRecord identifier with
  | .error e =>
      [.insertOne mongoDb (mongoCollection ++ "_errors")
         (.errorRecDoc identifier e.cls "record" e.msg),
       .updateOneSetDone selfMongoDb (mongoCollection ++ "_records_checkpoint") identifier]
  | .ok raw =>
      if raw.deleted then
        [.insertOne mongoDb (mongoCollection ++ "_deleted") (.deletedDoc identifier),
         .updateOneSetDone selfMongoDb (mongoCollection ++ "_records_checkpoint") identifier]
      else
        [.insertOne mongoDb (mongoCollection ++ "_records") (.recordDoc identifier raw.meta),
         .updateOneSetDone selfMongoDb (mongoCollection ++ "_records_checkpoint") identifier]

/-- `process_record` as a store transformer. -/
def process_record (selfMongoDb : String) (client : Client)
    (identifier mongoDb mongoCollection : String) (s : Store) : Store :=
  applyOps s (processRecordOps selfMongoDb client identifier mongoDb mongoCollection)

/-- The store operations performed by one call of
`OxomoHarvester.process_set(client, identifier, mongo_db,
mongo_collection)`, in order.  On failure the code stores the whole
identifier dict as the error document id field. -/
def processSetOps (selfMongoDb : String) (client : Client)
    (identifier : SetItem) (mongoDb mongoCollection : String) : List Op :=
  match client.listIdentifiersSet identifier.ident with
  | .error e =>
      [.insertOne mongoDb (mongoCollection ++ "_errors")
         (.errorSetDoc identifier.ident identifier.name e.cls "set" e.msg),
       .updateOneSetDone selfMongoDb (mongoCollection ++ "_sets_checkpoint") identifier.ident]
  | .ok ids =>
      [.insertOne mongoDb (mongoCollection ++ "_sets")
         (.setDoc identifier.ident identifier.name ids),
       .updateOneSetDone selfMongoDb (mongoCollection ++ "_sets_checkpoint") identifier.ident]

/-- `process_set` as a store transformer. -/
def process_set (selfMongoDb : String) (client : Client)
    (identifier : SetItem) (mongoDb mongoCollection : String) (s : Store) : Store :=
  applyOps s (processSetOps selfMongoDb client identifier mongoDb mongoCollection)

/-- The outcomes of the lazy member listing used by `process_set`, made
explicit.  The oaipmh `listIdentifiers` returns a lazy sequence that
performs further network requests while it is iterated: the initial call
can raise (`callErr`), and otherwise iterating it either yields the full
sequence of identifiers (`yields`) or raises part-way through after
yielding a prefix of them (`iterErr`). -/
inductive LazyIds where
  | callErr (e : Err)
  | yields (ids : List String)
  | iterErr (sofar : List String) (e : Err)
deriving DecidableEq

/-- `OxomoHarvester.process_set` against the explicit lazy listing: the
store operations it performs, and the exception, if any, escaping the
invocation.  In the source only the `client.listIdentifiers(...)` call
sits inside the try, so `callErr` is caught and converted to an error
record plus a done update; the materialization loop
`for record_id in record_ids` sits outside the try and runs before any
insert, so on `iterErr` the exception propagates out of the invocation
with no store operation performed at all; on `yields` the harvested set
is inserted and the entry marked done. -/
def processSetLazy (selfMongoDb : String) (res : LazyIds) (identifier : SetItem)
    (mongoDb mongoCollection : String) : List Op × Option Err :=
  match res with
  | .callErr e =>
      ([.insertOne mongoDb (mongoCollection ++ "_errors")
          (.errorSetDoc identifier.ident identifier.name e.cls "set" e.msg),
        .updateOneSetDone selfMongoDb (mongoCollection ++ "_sets_checkpoint")
          identifier.ident],
       none)
  | .yields ids =>
      ([.insertOne mongoDb (mongoCollection ++ "_sets")
          (.setDoc identifier.ident identifier.name ids),
        .updateOneSetDone selfMongoDb (mongoCollection ++ "_sets_checkpoint")
          identifier.ident],
       none)
  | .iterErr _ e => ([], some e)

/-- One configured endpoint of the harvester: the oaipmh client bound
to its url, and the destination collection name. -/
structure Endpoint where
  client : Client
  coll : String

/-- One endpoint pass of `OxomoHarvester.run`.  The parallel dispatch
(threading backend over pairwise independent items) is modelled as
sequential processing of the snapshot list; the claims concern the
resulting store state.  `run` passes `self.mongo_db` as the `mongo_db`
argument of both processing methods.  The boolean records whether the
missing-checkpoint branch was taken (the endpoint reported and
omitted). -/
def runEndpoint (selfMongoDb : String) (ep : Endpoint) (s : Store) : Store × Bool :=
  if existsCkp s selfMongoDb ep.coll then
    let recordIds := get_records_regs s selfMongoDb ep.coll
    let s1 := recordIds.foldl
      (fun st i => process_record selfMongoDb ep.client i selfMongoDb ep.coll st) s
    let setIds := get_sets_regs s1 selfMongoDb ep.coll
    let s2 := setIds.foldl
      (fun st it => process_set selfMongoDb ep.client it selfMongoDb ep.coll st) s1
    (s2, false)
  else
    (s, true)

/-- `OxomoHarvester.run`: each endpoint in turn. -/
def run (selfMongoDb : String) (endpoints : List Endpoint) (s : Store) : Store :=
  endpoints.foldl (fun st ep => (runEndpoint selfMongoDb ep st).1) s

/-!  Concrete clients and stores used to instantiate the theorems. -/

/-- A client whose every call fails with one fixed exception. -/
def clientFail : Client where
  identify := .error ⟨"<class E>", "down"⟩
  listIdentifiersAll := .error ⟨"<class E>", "down"⟩
  listSets := .error ⟨"<class E>", "down"⟩
  getRecord := fun _ => .error ⟨"<class E>", "down"⟩
  listIdentifiersSet := fun _ => .error ⟨"<class E>", "down"⟩

/-- A concrete identity snapshot. -/
def idy0 : Identity :=
  ⟨"Repo", ["admin@repo"], "http://repo", "2.0", "2002-01-01", "YYYY-MM-DD"⟩

/-- A client whose identify and record listing succeed and whose set
listing fails. -/
def clientSetsFail : Client where
  identify := .ok idy0
  listIdentifiersAll := .ok ["A"]
  listSets := .error ⟨"<class PErr>", "net down"⟩
  getRecord := fun _ => .error ⟨"<class E>", "down"⟩
  listIdentifiersSet := fun _ => .error ⟨"<class E>", "down"⟩

/-- A client whose record listing is empty. -/
def clientEmptyIds : Client where
  identify := .ok idy0
  listIdentifiersAll := .ok []
  listSets := .ok [("s1", "Set One")]
  getRecord := fun _ => .error ⟨"<class E>", "down"⟩
  listIdentifiersSet := fun _ => .error ⟨"<class E>", "down"⟩

/-- The adapter of the concrete harvesting scenario: success for A, a
deletion flag for B, an exception for C, and a member list for set s1. -/
def clientScenario : Client where
  identify := .ok idy0
  listIdentifiersAll := .ok ["A", "B", "C"]
  listSets := .ok [("s1", "Set One")]
  getRecord := fun j =>
    if j = "A" then .ok ⟨false, [("title", "T1")]⟩
    else if j = "B" then .ok ⟨true, []⟩
    else .error ⟨"<class E>", "boom"⟩
  listIdentifiersSet := fun j =>
    if j = "s1" then .ok ["A", "B"] else .error ⟨"<class E>", "down"⟩

/-- A checkpoint holding records A, B, C and set s1, all pending. -/
def storeScenario : Store := fun k =>
  if k = ("dspace", "inst_records_checkpoint") then
    some [Doc.ledgerRec "A" 0, Doc.ledgerRec "B" 0, Doc.ledgerRec "C" 0]
  else if k = ("dspace", "inst_sets_checkpoint") then
    some [Doc.ledgerSet "s1" "Set One" 0]
  else none

/-- A record ledger holding A, B, C pending and nothing else. -/
def storeABC : Store := fun k =>
  if k = ("dspace", "inst_records_checkpoint") then
    some [Doc.ledgerRec "A" 0, Doc.ledgerRec "B" 0, Doc.ledgerRec "C" 0]
  else none

/-!  Helper lemmas shared by the claim theorems. -/

/-- Appending suffixes of different lengths to the same collection
prefix yields distinct collection names. -/
theorem append_suffix_ne (c a b : String) (h : a.length ≠ b.length) :
    c ++ a ≠ c ++ b := by
  intro h2
  have h3 := congrArg String.length h2
  rw [String.length_append, String.length_append] at h3
  omega

/-- Two keys built from the same collection prefix but suffixes of
different lengths are distinct, whatever the databases are. -/
theorem key_ne_of_len (dbx db c : String) (a b : String) (h : a.length ≠ b.length) :
    ((dbx, c ++ a) : Key) ≠ (db, c ++ b) := by
  intro he
  exact append_suffix_ne c a b h (congrArg Prod.snd he)

/-- An operation leaves every other collection untouched. -/
theorem apply_insertOne_at_other (s : Store) (db coll : String) (d : Doc) (k : Key)
    (h : k ≠ (db, coll)) : apply s (.insertOne db coll d) k = s k := by
  simp [apply, h]

/-- An update leaves every other collection untouched. -/
theorem apply_update_at_other (s : Store) (db coll i : String) (k : Key)
    (h : k ≠ (db, coll)) : apply s (.updateOneSetDone db coll i) k = s k := by
  simp [apply, h]

/-- `update_one` on a list with no matching document is a no-op. -/
theorem updateFirst_no_match (p : Doc → Bool) (f : Doc → Doc) (L : List Doc)
    (h : ∀ d ∈ L, p d = false) : updateFirst p f L = L := by
  induction L with
  | nil => rfl
  | cons a t ih =>
      have ha := h a (by simp)
      simp [updateFirst, ha]
      exact ih fun d hd => h d (by simp [hd])

/-- `update_one` rewrites exactly the first matching document. -/
theorem updateFirst_first_match (p : Doc → Bool) (f : Doc → Doc)
    (pre : List Doc) (d : Doc) (post : List Doc)
    (hpre : ∀ x ∈ pre, p x = false) (hd : p d = true) :
    updateFirst p f (pre ++ d :: post) = pre ++ f d :: post := by
  induction pre with
  | nil => simp [updateFirst, hd]
  | cons a t ih =>
      have ha := hpre a (by simp)
      simp only [List.cons_append, updateFirst, ha, Bool.false_eq_true, if_false,
        List.cons.injEq, true_and]
      exact ih fun x hx => hpre x (by simp [hx])

/-- Marking done fixes a document that is already done. -/
theorem setStatusDone_of_done (d : Doc) (h : isDone d = true) : setStatusDone d = d := by
  cases d <;> simp_all [isDone, setStatusDone]

/-- A done document survives `update_one`. -/
theorem mem_updateFirst_of_done (p : Doc → Bool) (L : List Doc) (d : Doc)
    (hm : d ∈ L) (hd : isDone d = true) : d ∈ updateFirst p setStatusDone L := by
  induction L with
  | nil => cases hm
  | cons a t ih =>
      rcases List.mem_cons.mp hm with rfl | hmt
      · by_cases hp : p d
        · simp [updateFirst, hp, setStatusDone_of_done d hd]
        · simp [updateFirst, hp]
      · by_cases hp : p a
        · simp [updateFirst, hp, hmt]
        · simp only [updateFirst, hp, Bool.false_eq_true, if_false, List.mem_cons]
          exact Or.inr (ih hmt)

/-- A document matched by `recLedgerPending` is a pending record entry. -/
theorem recLedgerPending_eq_some (d : Doc) (i : String)
    (h : recLedgerPending d = some i) : d = Doc.ledgerRec i 0 := by
  cases d <;> simp only [recLedgerPending] at h <;> try exact Option.noConfusion h
  case ledgerRec j st =>
    by_cases hst : st = 0
    · rw [if_pos hst] at h
      rw [hst, Option.some.inj h]
    · rw [if_neg hst] at h
      exact Option.noConfusion h

/-- A document matched by `setLedgerPending` is a pending set entry. -/
theorem setLedgerPending_eq_some (d : Doc) (it : SetItem)
    (h : setLedgerPending d = some it) : d = Doc.ledgerSet it.ident it.name 0 := by
  cases d <;> simp only [setLedgerPending] at h <;> try exact Option.noConfusion h
  case ledgerSet j n st =>
    by_cases hst : st = 0
    · rw [if_pos hst] at h
      have h2 := Option.some.inj h
      rw [hst, ← h2]
    · rw [if_neg hst] at h
      exact Option.noConfusion h

/-!  The claims. -/

/-- C1: every invocation of `process_record` performs exactly one outcome
insert and exactly one ledger done transition for the id: on adapter failure
the insert is the error record with the id, the exception class, item type
record and the message, into the errors sink; on a header flagged deleted it
is the deletion marker with the id, into the deleted sink; otherwise it is the
fetched metadata map carrying the id, into the records sink. -/
theorem process_record_exactly_one_write_and_transition
    (selfDb : String) (client : Client) (i db coll : String) :
    (processRecordOps selfDb client i db coll).length = 2 ∧
    ((processRecordOps selfDb client i db coll).filter Op.isInsert).length = 1 ∧
    (processRecordOps selfDb client i db coll).filter Op.isLedgerDone =
      [Op.updateOneSetDone selfDb (coll ++ "_records_checkpoint") i] ∧
    (processRecordOps selfDb client i db coll).filter Op.isInsert =
      (match client.getRecord i with
       | .error e =>
           [Op.insertOne db (coll ++ "_errors") (.errorRecDoc i e.cls "record" e.msg)]
       | .ok raw =>
           if raw.deleted then
             [Op.insertOne db (coll ++ "_deleted") (.deletedDoc i)]
           else
             [Op.insertOne db (coll ++ "_records") (.recordDoc i raw.meta)]) := by
  cases h : client.getRecord i with
  | error e =>
      simp [processRecordOps, h, Op.isInsert, Op.isLedgerDone, List.filter]
  | ok raw =>
      by_cases hd : raw.deleted <;>
        simp [processRecordOps, h, hd, Op.isInsert, Op.isLedgerDone, List.filter]

/-- Supporting lemma for the caught path of `process_set`: when the
member listing call itself fails (the only failure the try catches),
`process_set` writes exactly one error record (carrying the set item,
item type set, the exception class and message) to the errors sink and
marks the set ledger entry done: the whole effect is that two-step
trace, the errors sink gains exactly the one document, and a pending
ledger entry for the id with no earlier match becomes done. -/
theorem process_set_failure_one_error_and_done
    (selfDb : String) (client : Client) (it : SetItem) (db coll : String) (e : Err)
    (h : client.listIdentifiersSet it.ident = .error e) :
    processSetOps selfDb client it db coll =
      [Op.insertOne db (coll ++ "_errors")
         (.errorSetDoc it.ident it.name e.cls "set" e.msg),
       Op.updateOneSetDone selfDb (coll ++ "_sets_checkpoint") it.ident] ∧
    (∀ s : Store,
       getColl (process_set selfDb client it db coll s) (db, coll ++ "_errors") =
         getColl s (db, coll ++ "_errors") ++
           [Doc.errorSetDoc it.ident it.name e.cls "set" e.msg]) ∧
    (∀ (s : Store) (pre post : List Doc) (n : String) (st : Nat),
       getColl s (selfDb, coll ++ "_sets_checkpoint") =
         pre ++ Doc.ledgerSet it.ident n st :: post →
       (∀ x ∈ pre, docMatchesId x it.ident = false) →
       getColl (process_set selfDb client it db coll s) (selfDb, coll ++ "_sets_checkpoint") =
         pre ++ Doc.ledgerSet it.ident n 1 :: post) := by
  refine ⟨by simp [processSetOps, h], ?_, ?_⟩
  · intro s
    have hs1 : coll ++ "_errors" ≠ coll ++ "_sets_checkpoint" :=
      append_suffix_ne coll _ _ (by decide)
    have hs2 : coll ++ "_sets_checkpoint" ≠ coll ++ "_errors" :=
      append_suffix_ne coll _ _ (by decide)
    simp only [process_set, processSetOps, h, applyOps, List.foldl, apply, getColl]
    simp [hs1, hs2]
  · intro s pre post n st hcoll hpre
    have hne : ((selfDb, coll ++ "_sets_checkpoint") : Key) ≠ (db, coll ++ "_errors") :=
      key_ne_of_len selfDb db coll _ _ (by decide)
    have hsome : s (selfDb, coll ++ "_sets_checkpoint") =
        some (pre ++ Doc.ledgerSet it.ident n st :: post) := by
      cases hk : s (selfDb, coll ++ "_sets_checkpoint") with
      | none => simp [getColl, hk] at hcoll
      | some L => rw [getColl, hk] at hcoll; simp only [Option.getD] at hcoll; rw [hcoll]
    have hupd : updateFirst (fun d => docMatchesId d it.ident) setStatusDone
        (pre ++ Doc.ledgerSet it.ident n st :: post) =
        pre ++ Doc.ledgerSet it.ident n 1 :: post := by
      have hfm := updateFirst_first_match (fun d => docMatchesId d it.ident) setStatusDone
        pre (Doc.ledgerSet it.ident n st) post hpre (by simp [docMatchesId])
      simpa [setStatusDone] using hfm
    simp only [process_set, processSetOps, h, applyOps, List.foldl, apply, getColl]
    simp only [if_pos rfl, if_neg hne]
    rw [hsome]
    simp [hupd]

/-- The caught-path lemma instantiated at a concrete failing client. -/
theorem process_set_failure_one_error_and_done_inst :
    processSetOps "dspace" clientFail ⟨"s1", "Set One"⟩ "dspace" "inst" =
      [Op.insertOne "dspace" ("inst" ++ "_errors")
         (.errorSetDoc "s1" "Set One" "<class E>" "set" "down"),
       Op.updateOneSetDone "dspace" ("inst" ++ "_sets_checkpoint") "s1"] :=
  (process_set_failure_one_error_and_done "dspace" clientFail ⟨"s1", "Set One"⟩
    "dspace" "inst" ⟨"<class E>", "down"⟩ rfl).1

/-- On the two atomic outcomes of the member listing, the refined lazy
model performs exactly the operations of `processSetOps` and lets no
exception escape; only `iterErr` is outside what the atomic client
model can express. -/
theorem processSetLazy_agrees
    (selfDb : String) (client : Client) (it : SetItem) (db coll : String) :
    (∀ e, client.listIdentifiersSet it.ident = .error e →
       processSetLazy selfDb (.callErr e) it db coll =
         (processSetOps selfDb client it db coll, none)) ∧
    (∀ ids, client.listIdentifiersSet it.ident = .ok ids →
       processSetLazy selfDb (.yields ids) it db coll =
         (processSetOps selfDb client it db coll, none)) := by
  constructor
  · intro e h
    simp [processSetLazy, processSetOps, h]
  · intro ids h
    simp [processSetLazy, processSetOps, h]

/-- C2 (code bug): at the failing input — the set item s1 whose lazy
member listing yields A and then raises while being materialized — the
code performs no store operation at all and the exception escapes
`process_set`: the errors sink gains no error record, the set ledger
entry is not marked done (the whole store, with s1 pending, is left
unchanged), and the failure propagates out of the invocation, contrary
to the claim that any such failure is converted into exactly one error
record plus a done marking and does not propagate. -/
theorem process_set_iteration_failure_escapes :
    (processSetLazy "dspace"
        (.iterErr ["A"] ⟨"<class HTTPError>", "timeout"⟩)
        ⟨"s1", "Set One"⟩ "dspace" "inst").2 =
      some ⟨"<class HTTPError>", "timeout"⟩ ∧
    (processSetLazy "dspace"
        (.iterErr ["A"] ⟨"<class HTTPError>", "timeout"⟩)
        ⟨"s1", "Set One"⟩ "dspace" "inst").1 = [] ∧
    applyOps storeScenario
      (processSetLazy "dspace"
        (.iterErr ["A"] ⟨"<class HTTPError>", "timeout"⟩)
        ⟨"s1", "Set One"⟩ "dspace" "inst").1 = storeScenario :=
  ⟨rfl, rfl, rfl⟩

/-- C3: in every execution path of `process_record` and `process_set` the trace
is the single outcome insert followed by the single ledger done update, and
applying only the part of the trace that precedes the ledger update leaves
every checkpoint collection of the endpoint unchanged, so an interruption
between the outcome write and the ledger update leaves the entry pending and
the work resumable. -/
theorem ledger_pending_until_outcome_written
    (selfDb : String) (client : Client) (i : String) (it : SetItem) (db coll : String) :
    (∃ ins : Op,
       processRecordOps selfDb client i db coll =
         [ins, Op.updateOneSetDone selfDb (coll ++ "_records_checkpoint") i] ∧
       ins.isInsert = true ∧ ins.isLedgerDone = false ∧
       ∀ (s : Store) (dbx : String),
         apply s ins (dbx, coll ++ "_records_checkpoint") =
           s (dbx, coll ++ "_records_checkpoint") ∧
         apply s ins (dbx, coll ++ "_sets_checkpoint") =
           s (dbx, coll ++ "_sets_checkpoint")) ∧
    (∃ ins : Op,
       processSetOps selfDb client it db coll =
         [ins, Op.updateOneSetDone selfDb (coll ++ "_sets_checkpoint") it.ident] ∧
       ins.isInsert = true ∧ ins.isLedgerDone = false ∧
       ∀ (s : Store) (dbx : String),
         apply s ins (dbx, coll ++ "_records_checkpoint") =
           s (dbx, coll ++ "_records_checkpoint") ∧
         apply s ins (dbx, coll ++ "_sets_checkpoint") =
           s (dbx, coll ++ "_sets_checkpoint")) := by
  constructor
  · cases h : client.getRecord i with
    | error e =>
        refine ⟨Op.insertOne db (coll ++ "_errors") (.errorRecDoc i e.cls "record" e.msg),
          by simp [processRecordOps, h], rfl, rfl, ?_⟩
        intro s dbx
        exact ⟨apply_insertOne_at_other _ _ _ _ _ (key_ne_of_len dbx db coll _ _ (by decide)),
          apply_insertOne_at_other _ _ _ _ _ (key_ne_of_len dbx db coll _ _ (by decide))⟩
    | ok raw =>
        by_cases hd : raw.deleted
        · refine ⟨Op.insertOne db (coll ++ "_deleted") (.deletedDoc i),
            by simp [processRecordOps, h, hd], rfl, rfl, ?_⟩
          intro s dbx
          exact ⟨apply_insertOne_at_other _ _ _ _ _ (key_ne_of_len dbx db coll _ _ (by decide)),
            apply_insertOne_at_other _ _ _ _ _ (key_ne_of_len dbx db coll _ _ (by decide))⟩
        · refine ⟨Op.insertOne db (coll ++ "_records") (.recordDoc i raw.meta),
            by simp [processRecordOps, h, hd], rfl, rfl, ?_⟩
          intro s dbx
          exact ⟨apply_insertOne_at_other _ _ _ _ _ (key_ne_of_len dbx db coll _ _ (by decide)),
            apply_insertOne_at_other _ _ _ _ _ (key_ne_of_len dbx db coll _ _ (by decide))⟩
  · cases h : client.listIdentifiersSet it.ident with
    | error e =>
        refine ⟨Op.insertOne db (coll ++ "_errors")
            (.errorSetDoc it.ident it.name e.cls "set" e.msg),
          by simp [processSetOps, h], rfl, rfl, ?_⟩
        intro s dbx
        exact ⟨apply_insertOne_at_other _ _ _ _ _ (key_ne_of_len dbx db coll _ _ (by decide)),
          apply_insertOne_at_other _ _ _ _ _ (key_ne_of_len dbx db coll _ _ (by decide))⟩
    | ok ids =>
        refine ⟨Op.insertOne db (coll ++ "_sets") (.setDoc it.ident it.name ids),
          by simp [processSetOps, h], rfl, rfl, ?_⟩
        intro s dbx
        exact ⟨apply_insertOne_at_other _ _ _ _ _ (key_ne_of_len dbx db coll _ _ (by decide)),
          apply_insertOne_at_other _ _ _ _ _ (key_ne_of_len dbx db coll _ _ (by decide))⟩

/-- C10: in both processing methods the outcome document is inserted into the
database named by the mongo_db argument while the ledger done update is
applied in the database fixed at harvester construction, so the outcome and
its ledger transition land in the same database exactly when the caller passes
the constructor database as mongo_db. -/
theorem outcome_db_and_ledger_db
    (selfDb : String) (client : Client) (i : String) (it : SetItem) (db coll : String) :
    (∃ ins : Op,
       processRecordOps selfDb client i db coll =
         [ins, Op.updateOneSetDone selfDb (coll ++ "_records_checkpoint") i] ∧
       ins.isInsert = true ∧ ins.dbOf = db ∧
       (Op.updateOneSetDone selfDb (coll ++ "_records_checkpoint") i).dbOf = selfDb ∧
       (ins.dbOf = (Op.updateOneSetDone selfDb (coll ++ "_records_checkpoint") i).dbOf ↔
          db = selfDb)) ∧
    (∃ ins : Op,
       processSetOps selfDb client it db coll =
         [ins, Op.updateOneSetDone selfDb (coll ++ "_sets_checkpoint") it.ident] ∧
       ins.isInsert = true ∧ ins.dbOf = db ∧
       (Op.updateOneSetDone selfDb (coll ++ "_sets_checkpoint") it.ident).dbOf = selfDb ∧
       (ins.dbOf = (Op.updateOneSetDone selfDb (coll ++ "_sets_checkpoint") it.ident).dbOf ↔
          db = selfDb)) := by
  constructor
  · cases h : client.getRecord i with
    | error e =>
        exact ⟨Op.insertOne db (coll ++ "_errors") (.errorRecDoc i e.cls "record" e.msg),
          by simp [processRecordOps, h], rfl, rfl, rfl, Iff.rfl⟩
    | ok raw =>
        by_cases hd : raw.deleted
        · exact ⟨Op.insertOne db (coll ++ "_deleted") (.deletedDoc i),
            by simp [processRecordOps, h, hd], rfl, rfl, rfl, Iff.rfl⟩
        · exact ⟨Op.insertOne db (coll ++ "_records") (.recordDoc i raw.meta),
            by simp [processRecordOps, h, hd], rfl, rfl, rfl, Iff.rfl⟩
  · cases h : client.listIdentifiersSet it.ident with
    | error e =>
        exact ⟨Op.insertOne db (coll ++ "_errors")
            (.errorSetDoc it.ident it.name e.cls "set" e.msg),
          by simp [processSetOps, h], rfl, rfl, rfl, Iff.rfl⟩
    | ok ids =>
        exact ⟨Op.insertOne db (coll ++ "_sets") (.setDoc it.ident it.name ids),
          by simp [processSetOps, h], rfl, rfl, rfl, Iff.rfl⟩

/-- C5: over a checkpoint with records A, B, C and set s1 pending, and the
scenario adapter (success for A, deletion flag for B, exception for C, member
list for s1), one harvesting run terminates with a harvested record for A, a
deletion marker for B, an error record for C of item type record, a harvested
set s1 with members A and B, and every ledger entry marked done. -/
theorem run_concrete_scenario :
    getColl (run "dspace" [⟨clientScenario, "inst"⟩] storeScenario)
        ("dspace", "inst_records") = [Doc.recordDoc "A" [("title", "T1")]] ∧
    getColl (run "dspace" [⟨clientScenario, "inst"⟩] storeScenario)
        ("dspace", "inst_deleted") = [Doc.deletedDoc "B"] ∧
    getColl (run "dspace" [⟨clientScenario, "inst"⟩] storeScenario)
        ("dspace", "inst_errors") = [Doc.errorRecDoc "C" "<class E>" "record" "boom"] ∧
    getColl (run "dspace" [⟨clientScenario, "inst"⟩] storeScenario)
        ("dspace", "inst_sets") = [Doc.setDoc "s1" "Set One" ["A", "B"]] ∧
    run "dspace" [⟨clientScenario, "inst"⟩] storeScenario
        ("dspace", "inst_records_checkpoint") =
      some [Doc.ledgerRec "A" 1, Doc.ledgerRec "B" 1, Doc.ledgerRec "C" 1] ∧
    run "dspace" [⟨clientScenario, "inst"⟩] storeScenario
        ("dspace", "inst_sets_checkpoint") =
      some [Doc.ledgerSet "s1" "Set One" 1] := by
  decide

/-- C6: `get_records_regs` returns exactly the pending record ledger entries,
each as its id, and `get_sets_regs` exactly the pending set ledger entries as
id and name; in particular, after only A was marked done among A, B, C, a
restarted run reads exactly B and C as pending. -/
theorem pending_regs_exact (s : Store) (db coll : String) :
    (∀ i : String, i ∈ get_records_regs s db coll ↔
       Doc.ledgerRec i 0 ∈ getColl s (db, coll ++ "_records_checkpoint")) ∧
    (∀ it : SetItem, it ∈ get_sets_regs s db coll ↔
       Doc.ledgerSet it.ident it.name 0 ∈ getColl s (db, coll ++ "_sets_checkpoint")) ∧
    get_records_regs (update_record storeABC "dspace" "inst" "A") "dspace" "inst" =
      ["B", "C"] := by
  refine ⟨?_, ?_, by decide⟩
  · intro i
    simp only [get_records_regs, List.mem_filterMap]
    constructor
    · rintro ⟨d, hd, hp⟩
      rw [recLedgerPending_eq_some d i hp] at hd
      exact hd
    · intro hmem
      exact ⟨Doc.ledgerRec i 0, hmem, rfl⟩
  · intro it
    simp only [get_sets_regs, List.mem_filterMap]
    constructor
    · rintro ⟨d, hd, hp⟩
      rw [setLedgerPending_eq_some d it hp] at hd
      exact hd
    · intro hmem
      exact ⟨Doc.ledgerSet it.ident it.name 0, hmem, rfl⟩

/-- C8: when the checkpoint for an endpoint does not exist, `run` performs no
processing and no store writes for that endpoint, takes the reporting branch
that says the checkpoint must be created first, and continues with the
remaining configured endpoints. -/
theorem missing_checkpoint_skipped
    (selfDb : String) (ep : Endpoint) (eps : List Endpoint) (s : Store)
    (h : existsCkp s selfDb ep.coll = false) :
    (runEndpoint selfDb ep s).1 = s ∧
    (runEndpoint selfDb ep s).2 = true ∧
    run selfDb (ep :: eps) s = run selfDb eps s := by
  refine ⟨?_, ?_, ?_⟩ <;> simp [runEndpoint, run, h]

/-- Witness for C8 at a concrete store without a checkpoint. -/
theorem missing_checkpoint_skipped_witness :
    (runEndpoint "dspace" ⟨clientFail, "inst"⟩ emptyStore).1 = emptyStore ∧
    (runEndpoint "dspace" ⟨clientFail, "inst"⟩ emptyStore).2 = true ∧
    run "dspace" [⟨clientFail, "inst"⟩] emptyStore = run "dspace" [] emptyStore :=
  missing_checkpoint_skipped "dspace" ⟨clientFail, "inst"⟩ [] emptyStore rfl

/-- C4 counterexample: with a client whose set listing fails, the error from
`create` does propagate, but writes other than drops have been performed: the
identity snapshot and the complete record ledger were inserted before the
failing call, so it is false that every collection is merely unchanged or
dropped. -/
theorem create_no_partial_writes_counterexample :
    (create clientSetsFail emptyStore "dspace" "inst").1 =
      CreateResult.protoErr ⟨"<class PErr>", "net down"⟩ ∧
    ¬ (∀ k : Key,
        (create clientSetsFail emptyStore "dspace" "inst").2 k = emptyStore k ∨
        (create clientSetsFail emptyStore "dspace" "inst").2 k = none) := by
  constructor
  · decide
  · intro hall
    have hk := hall ("dspace", "inst_records_checkpoint")
    have hv : (create clientSetsFail emptyStore "dspace" "inst").2
        ("dspace", "inst_records_checkpoint") = some [Doc.ledgerRec "A" 0] := by
      decide
    rw [hv] at hk
    simp [emptyStore] at hk

/-- C4 amended: when an adapter identify or listing call raises inside
`create`, the error propagates to the caller, each collection whose recreation
completed before the failing call is fully dropped and re-inserted, every
other collection is untouched (in particular not even dropped), and no
collection is ever left partially inserted: an identify failure leaves the
store unchanged; a record listing failure leaves exactly the identity
collection recreated; a set listing failure leaves exactly the identity
collection and the complete record ledger recreated. -/
theorem create_failure_staged_writes
    (client : Client) (s : Store) (db coll : String) :
    (∀ e, client.identify = .error e →
       create client s db coll = (.protoErr e, s)) ∧
    (∀ idy e, client.identify = .ok idy →
       client.listIdentifiersAll = .error e →
       (create client s db coll).1 = .protoErr e ∧
       (create client s db coll).2 (db, coll ++ "_identity") = some [.identityDoc idy] ∧
       ∀ k : Key, k ≠ (db, coll ++ "_identity") → (create client s db coll).2 k = s k) ∧
    (∀ idy ids e, client.identify = .ok idy →
       client.listIdentifiersAll = .ok ids → ids ≠ [] →
       client.listSets = .error e →
       (create client s db coll).1 = .protoErr e ∧
       (create client s db coll).2 (db, coll ++ "_identity") = some [.identityDoc idy] ∧
       (create client s db coll).2 (db, coll ++ "_records_checkpoint") =
         some (ids.map (fun j => Doc.ledgerRec j 0)) ∧
       ∀ k : Key, k ≠ (db, coll ++ "_identity") →
         k ≠ (db, coll ++ "_records_checkpoint") →
         (create client s db coll).2 k = s k) := by
  refine ⟨?_, ?_, ?_⟩
  · intro e h1
    simp [create, h1]
  · intro idy e h1 h2
    refine ⟨by simp [create, h1, h2], ?_, ?_⟩
    · simp [create, h1, h2, apply, getColl]
    · intro k hk
      simp [create, h1, h2, apply, hk]
  · intro idy ids e h1 h2 hne h3
    cases ids with
    | nil => exact absurd rfl hne
    | cons a t =>
      have hIR : coll ++ "_identity" ≠ coll ++ "_records_checkpoint" :=
        append_suffix_ne coll _ _ (by decide)
      have hRI : coll ++ "_records_checkpoint" ≠ coll ++ "_identity" :=
        append_suffix_ne coll _ _ (by decide)
      refine ⟨by simp [create, h1, h2, h3], ?_, ?_, ?_⟩
      · simp [create, h1, h2, h3, apply, getColl, hIR, hRI]
      · simp [create, h1, h2, h3, apply, getColl, hIR, hRI]
      · intro k hk1 hk2
        simp [create, h1, h2, h3, apply, hk1, hk2]

/-- Witness for the amended C4 at the concrete set-listing failure. -/
theorem create_failure_staged_writes_witness :
    (create clientSetsFail emptyStore "dspace" "inst").1 =
      CreateResult.protoErr ⟨"<class PErr>", "net down"⟩ ∧
    (create clientSetsFail emptyStore "dspace" "inst").2
      ("dspace", "inst" ++ "_identity") = some [Doc.identityDoc idy0] ∧
    (create clientSetsFail emptyStore "dspace" "inst").2
      ("dspace", "inst" ++ "_records_checkpoint") = some [Doc.ledgerRec "A" 0] := by
  have h := (create_failure_staged_writes clientSetsFail emptyStore "dspace" "inst").2.2
    idy0 ["A"] ⟨"<class PErr>", "net down"⟩ rfl rfl (by decide) rfl
  exact ⟨h.1, h.2.1, h.2.2.1⟩

/-- C9: `create` never produces a checkpoint with an empty ledger: if it
returns normally both ledgers are nonempty, and when the remote record listing
(or set listing) is empty, the bulk insert of the empty list raises the
empty-insert error after the corresponding ledger collection has already been
dropped. -/
theorem create_rejects_empty_listing
    (client : Client) (s : Store) (db coll : String) :
    ((create client s db coll).1 = CreateResult.ok →
       getColl (create client s db coll).2 (db, coll ++ "_records_checkpoint") ≠ [] ∧
       getColl (create client s db coll).2 (db, coll ++ "_sets_checkpoint") ≠ []) ∧
    (∀ idy, client.identify = .ok idy →
       client.listIdentifiersAll = .ok [] →
       (create client s db coll).1 = CreateResult.emptyInsertErr ∧
       (create client s db coll).2 (db, coll ++ "_records_checkpoint") = none) ∧
    (∀ idy ids, client.identify = .ok idy →
       client.listIdentifiersAll = .ok ids → ids ≠ [] →
       client.listSets = .ok [] →
       (create client s db coll).1 = CreateResult.emptyInsertErr ∧
       (create client s db coll).2 (db, coll ++ "_sets_checkpoint") = none) := by
  refine ⟨?_, ?_, ?_⟩
  · intro hok
    cases h1 : client.identify with
    | error e => simp [create, h1] at hok
    | ok idy =>
      cases h2 : client.listIdentifiersAll with
      | error e => simp [create, h1, h2] at hok
      | ok ids =>
        cases ids with
        | nil => simp [create, h1, h2] at hok
        | cons a t =>
          cases h3 : client.listSets with
          | error e => simp [create, h1, h2, h3] at hok
          | ok setsRegs =>
            cases setsRegs with
            | nil => simp [create, h1, h2, h3] at hok
            | cons b u =>
              have hRS : coll ++ "_records_checkpoint" ≠ coll ++ "_sets_checkpoint" :=
                append_suffix_ne coll _ _ (by decide)
              have hSR : coll ++ "_sets_checkpoint" ≠ coll ++ "_records_checkpoint" :=
                append_suffix_ne coll _ _ (by decide)
              constructor <;> simp [create, h1, h2, h3, apply, getColl, hRS, hSR]
  · intro idy h1 h2
    exact ⟨by simp [create, h1, h2], by simp [create, h1, h2, apply]⟩
  · intro idy ids h1 h2 hne h3
    cases ids with
    | nil => exact absurd rfl hne
    | cons a t =>
      exact ⟨by simp [create, h1, h2, h3], by simp [create, h1, h2, h3, apply]⟩

/-- Witness for C9 at a concrete client with an empty record listing. -/
theorem create_rejects_empty_listing_witness :
    (create clientEmptyIds emptyStore "dspace" "inst").1 =
      CreateResult.emptyInsertErr ∧
    (create clientEmptyIds emptyStore "dspace" "inst").2
      ("dspace", "inst" ++ "_records_checkpoint") = none :=
  (create_rejects_empty_listing clientEmptyIds emptyStore "dspace" "inst").2.1
    idy0 rfl rfl

/-- C7: `update_record` and `update_set` set status done for at most the
single first ledger entry matching the given id, touch no other collection,
are a no-op when no entry matches, and setting status done fixes an already
done entry; and no store operation other than a drop ever removes or reverts
a done ledger entry, so within one checkpoint epoch an entry goes from
pending to done at most once and done is terminal. -/
theorem ledger_done_monotone (s : Store) (db coll i : String) :
    ((∀ d ∈ getColl s (db, coll ++ "_records_checkpoint"), docMatchesId d i = false) →
       update_record s db coll i = s) ∧
    ((∀ d ∈ getColl s (db, coll ++ "_sets_checkpoint"), docMatchesId d i = false) →
       update_set s db coll i = s) ∧
    (∀ pre d post,
       getColl s (db, coll ++ "_records_checkpoint") = pre ++ d :: post →
       (∀ x ∈ pre, docMatchesId x i = false) → docMatchesId d i = true →
       getColl (update_record s db coll i) (db, coll ++ "_records_checkpoint") =
         pre ++ setStatusDone d :: post) ∧
    (∀ pre d post,
       getColl s (db, coll ++ "_sets_checkpoint") = pre ++ d :: post →
       (∀ x ∈ pre, docMatchesId x i = false) → docMatchesId d i = true →
       getColl (update_set s db coll i) (db, coll ++ "_sets_checkpoint") =
         pre ++ setStatusDone d :: post) ∧
    (∀ d : Doc, isDone d = true → setStatusDone d = d) ∧
    (∀ (op : Op) (k : Key) (d : Doc), op.isDrop = false →
       d ∈ getColl s k → isDone d = true → d ∈ getColl (apply s op) k) ∧
    (∀ k : Key, k ≠ (db, coll ++ "_records_checkpoint") →
       update_record s db coll i k = s k) ∧
    (∀ k : Key, k ≠ (db, coll ++ "_sets_checkpoint") →
       update_set s db coll i k = s k) := by
  refine ⟨?_, ?_, ?_, ?_, setStatusDone_of_done, ?_, ?_, ?_⟩
  · intro h
    funext k
    by_cases hk : k = (db, coll ++ "_records_checkpoint")
    · subst hk
      cases hs : s (db, coll ++ "_records_checkpoint") with
      | none => simp [update_record, apply, hs]
      | some L =>
          have hnm : updateFirst (fun d => docMatchesId d i) setStatusDone L = L :=
            updateFirst_no_match _ _ L fun d hd => h d (by simp [getColl, hs, hd])
          simp [update_record, apply, hs, hnm]
    · simp [update_record, apply, hk]
  · intro h
    funext k
    by_cases hk : k = (db, coll ++ "_sets_checkpoint")
    · subst hk
      cases hs : s (db, coll ++ "_sets_checkpoint") with
      | none => simp [update_set, apply, hs]
      | some L =>
          have hnm : updateFirst (fun d => docMatchesId d i) setStatusDone L = L :=
            updateFirst_no_match _ _ L fun d hd => h d (by simp [getColl, hs, hd])
          simp [update_set, apply, hs, hnm]
    · simp [update_set, apply, hk]
  · intro pre d post hcoll hpre hd
    have hsome : s (db, coll ++ "_records_checkpoint") = some (pre ++ d :: post) := by
      cases hk : s (db, coll ++ "_records_checkpoint") with
      | none => simp [getColl, hk] at hcoll
      | some L => rw [getColl, hk] at hcoll; simp only [Option.getD] at hcoll; rw [hcoll]
    have hfm := updateFirst_first_match (fun x => docMatchesId x i) setStatusDone
      pre d post hpre hd
    simp [update_record, apply, getColl, hsome, hfm]
  · intro pre d post hcoll hpre hd
    have hsome : s (db, coll ++ "_sets_checkpoint") = some (pre ++ d :: post) := by
      cases hk : s (db, coll ++ "_sets_checkpoint") with
      | none => simp [getColl, hk] at hcoll
      | some L => rw [getColl, hk] at hcoll; simp only [Option.getD] at hcoll; rw [hcoll]
    have hfm := updateFirst_first_match (fun x => docMatchesId x i) setStatusDone
      pre d post hpre hd
    simp [update_set, apply, getColl, hsome, hfm]
  · intro op k d hop hmem hdone
    cases op with
    | dropColl db2 c2 => simp [Op.isDrop] at hop
    | insertOne db2 c2 x =>
        by_cases hk : k = (db2, c2)
        · subst hk
          simp only [apply, getColl]
          rw [if_pos trivial]
          simp only [Option.getD]
          exact List.mem_append_left _ hmem
        · simp only [apply, getColl]
          rw [if_neg hk]
          exact hmem
    | insertMany db2 c2 xs =>
        by_cases hk : k = (db2, c2)
        · subst hk
          simp only [apply, getColl]
          rw [if_pos trivial]
          simp only [Option.getD]
          exact List.mem_append_left _ hmem
        · simp only [apply, getColl]
          rw [if_neg hk]
          exact hmem
    | updateOneSetDone db2 c2 j =>
        by_cases hk : k = (db2, c2)
        · subst hk
          cases hs : s (db2, c2) with
          | none => simp [getColl, hs] at hmem
          | some L =>
              have hm2 : d ∈ L := by
                rw [getColl, hs] at hmem
                simpa using hmem
              simp only [apply, getColl]
              rw [if_pos trivial, hs]
              simpa using mem_updateFirst_of_done _ L d hm2 hdone
        · simp only [apply, getColl]
          rw [if_neg hk]
          exact hmem
  · intro k hk
    simp [update_record, apply, hk]
  · intro k hk
    simp [update_set, apply, hk]

/-- Witness for C7: updating an absent id leaves the store unchanged. -/
theorem ledger_done_monotone_witness :
    update_record storeABC "dspace" "inst" "Z" = storeABC :=
  (ledger_done_monotone storeABC "dspace" "inst" "Z").1 (by decide)

end Oxomo
